import Mathlib

/-!
Verification of the `BugzillaREST` backend
(`perceval/backends/bugzillarest.py`): the cache-backed fetch/replay
pipeline.  Raw HTTP response bodies are JSON texts; since the code only
ever stores them and re-decodes them with `json.loads`, a raw body is
represented here by its decoded JSON value (identical texts decode to
identical values).  The unbounded `while True` pagination loop is given
an explicit fuel parameter; runs that finish within their fuel behave
exactly as the Python loop does.
-/

namespace Perceval

/-- Decoded JSON values (the shape `json.loads` produces). -/
inductive Json where
  | null
  | bool (b : Bool)
  | num (n : Int)
  | str (s : String)
  | arr (elems : List Json)
  | obj (fields : List (String × Json))

/-- Lookup of a key in the field list of a JSON object (Python `d[k]`,
first binding wins; `none` models a `KeyError`). -/
def getKey : List (String × Json) → String → Option Json
  | [], _ => none
  | (k', v) :: rest, k => if k = k' then some v else getKey rest k

/-- Python `d[k]`: `none` models `KeyError` (missing key) and also
`TypeError` (subscripting a non-dict). -/
def Json.lookup : Json → String → Option Json
  | .obj fields, k => getKey fields k
  | _, _ => none

/-- Helper for `Json.set`: replace the binding of `k` (keeping its
position) or append it, as Python `d[k] = v` does. -/
def setKey : List (String × Json) → String → Json → List (String × Json)
  | [], k, v => [(k, v)]
  | (k', v') :: rest, k, v =>
      if k = k' then (k, v) :: rest else (k', v') :: setKey rest k v

/-- Python `d[k] = v` on a JSON object; on non-objects it is the
identity (that case is unreachable in the modelled code, which always
looks a key up in the object first). -/
def Json.set : Json → String → Json → Json
  | .obj fields, k, v => .obj (setKey fields k v)
  | j, _, _ => j

/-- Python `str()` of a decoded JSON value, used by `str(bug_id)` and
`metadata_id`.  Only the scalar cases are exercised by the code. -/
def pyStr : Json → String
  | .null => "None"
  | .bool true => "True"
  | .bool false => "False"
  | .num n => toString n
  | .str s => s
  | .arr _ => "<list>"
  | .obj _ => "<dict>"

/-- Exceptions the modelled code can raise. -/
inductive PyError where
  /-- `requests.exceptions.HTTPError` from `raise_for_status()` on a
  non-success HTTP status. -/
  | transport (status : Nat)
  /-- `KeyError` / `TypeError` from a failed subscript. -/
  | keyError
  /-- `TypeError` from iterating a value that is not a JSON array. -/
  | typeError
  /-- Reading past the end of the cached-items iterator inside the
  `fetch_from_cache` generator (`next` raising `StopIteration`, which
  the generator does not catch at the triplet reads). -/
  | seqExhausted
  /-- `InvalidDateError` from `str_to_datetime`. -/
  | invalidDate
  /-- `CacheError("cache instance was not provided")`. -/
  | cacheUnavailable
  /-- Model artifact only: the fuel bound on the unbounded pagination
  loop ran out.  Runs that complete in the Python code are exactly the
  runs that finish with some fuel to spare here. -/
  | outOfFuel
deriving DecidableEq

/-- Result of one HTTP GET as surfaced by `BugzillaRESTClient.call`:
either the raw body text (decoded) or an HTTP error status, on which
`raise_for_status()` raises. -/
inductive Resp where
  | ok (body : Json)
  | err (status : Nat)

/-- The body of a successful response (junk on errors; used only where
success has already been established). -/
def Resp.body : Resp → Json
  | .ok j => j
  | .err _ => .null

/-- The remote Bugzilla server, abstracted as the responses the client
methods obtain.  `bugsAt offset limit` is the response to
`BugzillaRESTClient.bugs` for the given offset and limit (the
`from_date` is fixed ambient data for one run); the three per-bug
resources are keyed by the `id` value taken from the bug shell. -/
structure Server where
  bugsAt : Int → Int → Resp
  comments : Json → Resp
  history : Json → Resp
  attachments : Json → Resp

/-- Modelled from the spec: the CacheLog collaborator of section 6
(`perceval/cache.py` and the `Backend` cache-queue helpers are not part
of the analysed source).  `committed` is the durable content returned
by `retrieve`, in insertion order; `queue` holds entries buffered by
`_push_cache_queue` but not yet committed by `_flush_cache_queue`. -/
structure CacheState where
  committed : List Json
  queue : List Json

/-- `Backend._push_cache_queue`: buffer one raw entry. -/
def CacheState.push (st : CacheState) (e : Json) : CacheState :=
  ⟨st.committed, st.queue ++ [e]⟩

/-- `Backend._flush_cache_queue`: commit every buffered entry, in
order. -/
def CacheState.flush (st : CacheState) : CacheState :=
  ⟨st.committed ++ st.queue, []⟩

/-- `Backend._purge_cache_queue`: discard the buffered entries. -/
def CacheState.purge (st : CacheState) : CacheState :=
  ⟨st.committed, []⟩

/-- `data['bugs'][str(bug_id)]['comments']` (lines 172 and 129). -/
def parseComments (data bugId : Json) : Option Json :=
  (data.lookup "bugs").bind fun bs =>
    (bs.lookup (pyStr bugId)).bind fun entry => entry.lookup "comments"

/-- `data['bugs'][0]['history']` (lines 183 and 130). -/
def parseHistory (data : Json) : Option Json :=
  (data.lookup "bugs").bind fun bs =>
    match bs with
    | .arr (x :: _) => x.lookup "history"
    | _ => none

/-- `data['bugs'][str(bug_id)]` (lines 194 and 131). -/
def parseAttachments (data bugId : Json) : Option Json :=
  (data.lookup "bugs").bind fun bs => bs.lookup (pyStr bugId)

/-- `BugzillaREST.__fetch_and_parse_comments`: call the client, buffer
the raw body, decode it.  A transport error propagates before anything
is buffered; a decode failure propagates after the raw body was
buffered. -/
def fetch_and_parse_comments (srv : Server) (bugId : Json) (st : CacheState) :
    CacheState × Except PyError Json :=
  match srv.comments bugId with
  | .err s => (st, .error (.transport s))
  | .ok raw =>
    match parseComments raw bugId with
    | none => (st.push raw, .error .keyError)
    | some c => (st.push raw, .ok c)

/-- `BugzillaREST.__fetch_and_parse_history`. -/
def fetch_and_parse_history (srv : Server) (bugId : Json) (st : CacheState) :
    CacheState × Except PyError Json :=
  match srv.history bugId with
  | .err s => (st, .error (.transport s))
  | .ok raw =>
    match parseHistory raw with
    | none => (st.push raw, .error .keyError)
    | some h => (st.push raw, .ok h)

/-- `BugzillaREST.__fetch_and_parse_attachments`. -/
def fetch_and_parse_attachments (srv : Server) (bugId : Json) (st : CacheState) :
    CacheState × Except PyError Json :=
  match srv.attachments bugId with
  | .err s => (st, .error (.transport s))
  | .ok raw =>
    match parseAttachments raw bugId with
    | none => (st.push raw, .error .keyError)
    | some a => (st.push raw, .ok a)

/-- The `for bug in data['bugs']` body of `__fetch_bugs` (lines
154-160): for each bug shell, in server order, fetch and attach
comments, history and attachments, and yield the assembled bug.
Returns the cache state, the bugs yielded so far and the exception, if
one is raised. -/
def processBugs (srv : Server) : List Json → CacheState →
    CacheState × List Json × Option PyError
  | [], st => (st, [], none)
  | bug :: rest, st =>
    match bug.lookup "id" with
    | none => (st, [], some .keyError)
    | some bugId =>
      match fetch_and_parse_comments srv bugId st with
      | (st1, .error e) => (st1, [], some e)
      | (st1, .ok c) =>
        match fetch_and_parse_history srv bugId st1 with
        | (st2, .error e) => (st2, [], some e)
        | (st2, .ok h) =>
          match fetch_and_parse_attachments srv bugId st2 with
          | (st3, .error e) => (st3, [], some e)
          | (st3, .ok a) =>
            let bug' := ((bug.set "comments" c).set "history" h).set "attachments" a
            match processBugs srv rest st3 with
            | (st4, ys, e) => (st4, bug' :: ys, e)

/-- `BugzillaREST.__fetch_bugs` (lines 139-163): the pagination loop.
Each iteration requests a page at the current offset, buffers the raw
page, decodes it; an empty page ends the loop (leaving that page
buffered, uncommitted); otherwise the page's bugs are processed and the
buffered entries for the page are flushed before advancing the offset
by `maxBugs`.  `fuel` bounds the number of iterations (model artifact
for the unbounded `while True`). -/
def fetch_bugs (srv : Server) (maxBugs : Int) :
    Nat → Int → CacheState → CacheState × List Json × Option PyError
  | 0, _, st => (st, [], some .outOfFuel)
  | fuel + 1, offset, st =>
    match srv.bugsAt offset maxBugs with
    | .err s => (st, [], some (.transport s))
    | .ok raw =>
      let st1 := st.push raw
      match raw.lookup "bugs" with
      | some (.arr bugs) =>
        if bugs.isEmpty then (st1, [], none)
        else
          match processBugs srv bugs st1 with
          | (st2, ys, some e) => (st2, ys, some e)
          | (st2, ys, none) =>
            match fetch_bugs srv maxBugs fuel (offset + maxBugs) st2.flush with
            | (st3, ys2, e) => (st3, ys ++ ys2, e)
      | _ => (st1, [], some .typeError)

/-- The `BugzillaREST` connector state relevant to these claims:
the clamped page size and whether a cache object was provided.  The
remaining constructor arguments (url, credentials, origin) do not
affect any claimed behaviour. -/
structure BugzillaREST where
  maxBugs : Int
  hasCache : Bool

/-- `BugzillaREST.__init__`: `self.max_bugs = max(1, max_bugs)`. -/
def BugzillaREST.init (max_bugs : Int) (hasCache : Bool) : BugzillaREST :=
  ⟨max 1 max_bugs, hasCache⟩

/-- `BugzillaREST.fetch` (lines 74-97): purge the buffered-but-
uncommitted entries, then run the pagination loop from offset 0,
yielding each bug.  (The `from_date` defaulting only shapes the request
parameters, which the `Server` abstraction absorbs.) -/
def BugzillaREST.fetch (b : BugzillaREST) (srv : Server) (fuel : Nat)
    (st : CacheState) : CacheState × List Json × Option PyError :=
  fetch_bugs srv b.maxBugs fuel 0 st.purge

/-- One bug of the `for bug in bugs['bugs']` body of `fetch_from_cache`
(lines 123-134): read the bug id, read the next three cached entries,
decode them as comments, history and attachments, attach them, return
the assembled bug and the remaining entries.  Reading past the end of
the committed sequence raises (`next` → `StopIteration` escaping the
generator). -/
def replayBug (bug : Json) (items : List Json) :
    Except PyError (Json × List Json) :=
  match bug.lookup "id" with
  | none => .error .keyError
  | some bugId =>
    match items with
    | [] => .error .seqExhausted
    | cd :: items1 =>
      match items1 with
      | [] => .error .seqExhausted
      | hd :: items2 =>
        match items2 with
        | [] => .error .seqExhausted
        | ad :: items3 =>
          match parseComments cd bugId with
          | none => .error .keyError
          | some c =>
            match parseHistory hd with
            | none => .error .keyError
            | some h =>
              match parseAttachments ad bugId with
              | none => .error .keyError
              | some a =>
                .ok (((bug.set "comments" c).set "history" h).set "attachments" a,
                     items3)

/-- The per-page loop of `fetch_from_cache`: replay every bug shell of
one decoded page, consuming entries; returns the bugs yielded so far,
the remaining entries and the exception, if one is raised. -/
def replayPage : List Json → List Json →
    List Json × List Json × Option PyError
  | [], items => ([], items, none)
  | bug :: rest, items =>
    match replayBug bug items with
    | .error e => ([], items, some e)
    | .ok (bug', items') =>
      match replayPage rest items' with
      | (ys, items2, e) => (bug' :: ys, items2, e)

/-- The `while True` loop of `fetch_from_cache` (lines 115-134): read
the next entry as a page (an exhausted sequence here ends the loop
cleanly), then replay its bugs.  `fuel` bounds the iterations; every
iteration consumes at least one entry, so `items.length` fuel always
suffices. -/
def replayLoop : Nat → List Json → List Json × Option PyError
  | 0, _ => ([], none)
  | _ + 1, [] => ([], none)
  | fuel + 1, raw :: rest =>
    match raw.lookup "bugs" with
    | some (.arr bugs) =>
      match replayPage bugs rest with
      | (ys, rest', none) =>
        match replayLoop fuel rest' with
        | (ys2, e) => (ys ++ ys2, e)
      | (ys, _, some e) => (ys, some e)
    | _ => ([], some .typeError)

/-- `BugzillaREST.fetch_from_cache` (lines 100-137): raise when no
cache was configured, otherwise positionally replay the committed
entries. -/
def BugzillaREST.fetch_from_cache (b : BugzillaREST) (st : CacheState) :
    List Json × Option PyError :=
  if b.hasCache then replayLoop st.committed.length st.committed
  else ([], some .cacheUnavailable)

/-- `BugzillaREST.metadata_id`: `str(item['id'])`. -/
def metadata_id (item : Json) : Except PyError String :=
  match item.lookup "id" with
  | none => .error .keyError
  | some v => .ok (pyStr v)

/-- A timezone-aware datetime: the wall-clock reading (as seconds since
the epoch, read as if it were UTC) together with the UTC offset of its
timezone, in seconds. -/
structure PyDatetime where
  naiveSeconds : Int
  utcOffset : Int
deriving DecidableEq

/-- Python `datetime.timestamp()`: the UNIX timestamp of the instant,
which subtracts the timezone offset from the wall-clock reading. -/
def PyDatetime.timestamp (dt : PyDatetime) : Int :=
  dt.naiveSeconds - dt.utcOffset

/-- Value of a decimal digit character. -/
def digitVal (c : Char) : Option Nat :=
  if c.isDigit then some (c.toNat - 48) else none

/-- Read exactly `n` decimal digits, accumulating their value. -/
def readFixed : Nat → Nat → List Char → Option (Nat × List Char)
  | 0, acc, cs => some (acc, cs)
  | _ + 1, _, [] => none
  | n + 1, acc, c :: cs =>
    match digitVal c with
    | none => none
    | some d => readFixed n (acc * 10 + d) cs

/-- Consume one expected character. -/
def expectChar (c : Char) : List Char → Option (List Char)
  | [] => none
  | c' :: cs => if c' = c then some cs else none

/-- Days from the epoch of a civil date (proleptic Gregorian). -/
def daysFromCivil (y : Int) (m d : Nat) : Int :=
  let y1 : Int := if m ≤ 2 then y - 1 else y
  let era : Int := (if 0 ≤ y1 then y1 else y1 - 399) / 400
  let yoe : Int := y1 - era * 400
  let mp : Int := if 2 < m then (m : Int) - 3 else (m : Int) + 9
  let doy : Int := (153 * mp + 2) / 5 + (d : Int) - 1
  let doe : Int := yoe * 365 + yoe / 4 - yoe / 100 + doy
  era * 146097 + doe - 719468

/-- The timezone designator at the end of a timestamp string: absent
(parsed as naive, to which UTC is attached), `Z`, or `±HH:MM`. -/
def readOffset : List Char → Option Int
  | [] => some 0
  | ['Z'] => some 0
  | c :: cs =>
    if c = '+' ∨ c = '-' then
      match readFixed 2 0 cs with
      | some (hh, cs1) =>
        match expectChar ':' cs1 with
        | some cs2 =>
          match readFixed 2 0 cs2 with
          | some (mm, []) =>
            let off : Int := (hh : Int) * 3600 + (mm : Int) * 60
            some (if c = '-' then -off else off)
          | _ => none
        | none => none
      | none => none
    else none

/-- Modelled from the spec: `str_to_datetime` of `perceval/utils.py`
(not part of the analysed source) parses a timestamp string into a
timezone-aware datetime, attaching UTC when the string carries no
timezone, and fails with `InvalidDateError` on anything unparseable.
The model accepts ISO-8601 timestamps `YYYY-MM-DDTHH:MM:SS` with an
optional trailing `Z` or `±HH:MM`. -/
def strToDatetime (s : String) : Option PyDatetime := do
  let (y, cs) ← readFixed 4 0 s.toList
  let cs ← expectChar '-' cs
  let (mo, cs) ← readFixed 2 0 cs
  let cs ← expectChar '-' cs
  let (d, cs) ← readFixed 2 0 cs
  let cs ← expectChar 'T' cs
  let (h, cs) ← readFixed 2 0 cs
  let cs ← expectChar ':' cs
  let (mi, cs) ← readFixed 2 0 cs
  let cs ← expectChar ':' cs
  let (sec, cs) ← readFixed 2 0 cs
  if 1 ≤ mo ∧ mo ≤ 12 ∧ 1 ≤ d ∧ d ≤ 31 ∧ h ≤ 23 ∧ mi ≤ 59 ∧ sec ≤ 59 then
    let off ← readOffset cs
    some ⟨daysFromCivil (y : Int) mo d * 86400 + (h : Int) * 3600 + (mi : Int) * 60 + (sec : Int), off⟩
  else none

/-- `BugzillaREST.metadata_updated_on`: parse `item['last_change_time']`
with `str_to_datetime` and return its `.timestamp()`.  Bugzilla
timestamps carry whole seconds, so the timestamp is an integer. -/
def metadata_updated_on (item : Json) : Except PyError Int :=
  match item.lookup "last_change_time" with
  | none => .error .keyError
  | some (.str s) =>
    match strToDatetime s with
    | none => .error .invalidDate
    | some dt => .ok dt.timestamp
  | some _ => .error .invalidDate

/-- Shape of the cache entries and yielded records of one fully
processed page: for each bug shell in server order, the three raw
responses (comments, history, attachments — in that fixed order) and
the assembled bug built from their decoded contents. -/
inductive PageShape (srv : Server) : List Json → List Json → List Json → Prop
  | nil : PageShape srv [] [] []
  | cons (bug bugId cRaw c hRaw h aRaw a : Json) (bugs es ys : List Json) :
      bug.lookup "id" = some bugId →
      srv.comments bugId = .ok cRaw →
      parseComments cRaw bugId = some c →
      srv.history bugId = .ok hRaw →
      parseHistory hRaw = some h →
      srv.attachments bugId = .ok aRaw →
      parseAttachments aRaw bugId = some a →
      PageShape srv bugs es ys →
      PageShape srv (bug :: bugs) (cRaw :: hRaw :: aRaw :: es)
        ((((bug.set "comments" c).set "history" h).set "attachments" a) :: ys)

/-- Shape of a run of fully processed (hence committed) pages starting
at a given offset: each group is the raw page response followed by its
bugs' entry triplets, and each page advances the offset by the
configured page size. -/
inductive CompletedPages (srv : Server) (m : Int) :
    Int → List (List Json) → List (List Json) → Prop
  | nil (off : Int) : CompletedPages srv m off [] []
  | page (off : Int) (raw : Json) (bugs es ys : List Json)
      (gps yss : List (List Json)) :
      srv.bugsAt off m = .ok raw →
      raw.lookup "bugs" = some (.arr bugs) →
      bugs ≠ [] →
      PageShape srv bugs es ys →
      CompletedPages srv m (off + m) gps yss →
      CompletedPages srv m off ((raw :: es) :: gps) (ys :: yss)

/-- A bug shell used by the concrete examples. -/
def bugShell (n : Int) : Json :=
  .obj [("id", .num n), ("last_change_time", .str "2016-06-07T05:12:00+02:00")]

/-- A page response holding the given bug shells. -/
def pageBody (bugs : List Json) : Json :=
  .obj [("bugs", .arr bugs)]

/-- A comments response keyed, as on the wire, by the stringified bug
id. -/
def commentsBody (bugId : Json) : Json :=
  .obj [("bugs", .obj [(pyStr bugId, .obj [("comments", .arr [.str "a comment"])])])]

/-- A history response: a single positional record. -/
def historyBody : Json :=
  .obj [("bugs", .arr [.obj [("history", .arr [.str "an event"])]])]

/-- An attachments response keyed by the stringified bug id. -/
def attachmentsBody (bugId : Json) : Json :=
  .obj [("bugs", .obj [(pyStr bugId, .arr [.str "an attachment"])])]

/-- A concrete server: one page with bugs 10 and 11, then empty pages;
every per-bug resource succeeds. -/
def exampleSrv : Server where
  bugsAt := fun off _ => if off = 0 then .ok (pageBody [bugShell 10, bugShell 11]) else .ok (pageBody [])
  comments := fun bid => .ok (commentsBody bid)
  history := fun _ => .ok historyBody
  attachments := fun bid => .ok (attachmentsBody bid)

/-- A concrete server whose comments resource fails with HTTP 500. -/
def brokenSrv : Server where
  bugsAt := fun off _ => if off = 0 then .ok (pageBody [bugShell 10, bugShell 11]) else .ok (pageBody [])
  comments := fun _ => .err 500
  history := fun _ => .ok historyBody
  attachments := fun bid => .ok (attachmentsBody bid)

/-- A server that answers every page request with an empty page. -/
def emptySrv : Server where
  bugsAt := fun _ _ => .ok (pageBody [])
  comments := fun bid => .ok (commentsBody bid)
  history := fun _ => .ok historyBody
  attachments := fun bid => .ok (attachmentsBody bid)

/-- The assembled record the example server produces for bug `n`. -/
def assembledBug (n : Int) : Json :=
  .obj [("id", .num n), ("last_change_time", .str "2016-06-07T05:12:00+02:00"),
        ("comments", .arr [.str "a comment"]),
        ("history", .arr [.str "an event"]),
        ("attachments", .arr [.str "an attachment"])]

@[simp] theorem push_committed (st : CacheState) (e : Json) :
    (st.push e).committed = st.committed := rfl

@[simp] theorem push_queue (st : CacheState) (e : Json) :
    (st.push e).queue = st.queue ++ [e] := rfl

theorem getKey_setKey_self (f : List (String × Json)) (k : String) (v : Json) :
    getKey (setKey f k v) k = some v := by
  induction f with
  | nil => simp [setKey, getKey]
  | cons p rest ih =>
    obtain ⟨k', v'⟩ := p
    by_cases h : k = k'
    · simp [setKey, getKey, h]
    · simp [setKey, getKey, h, ih]

theorem getKey_setKey_ne (f : List (String × Json)) {k k' : String} (v : Json)
    (h : k' ≠ k) : getKey (setKey f k v) k' = getKey f k' := by
  induction f with
  | nil => simp [setKey, getKey, h]
  | cons p rest ih =>
    obtain ⟨k2, v2⟩ := p
    by_cases h2 : k = k2
    · subst h2
      simp [setKey, getKey, h]
    · simp only [setKey, if_neg h2, getKey]
      split <;> simp [ih]

theorem lookup_eq_some_obj {j : Json} {k : String} {v : Json}
    (h : j.lookup k = some v) : ∃ f, j = .obj f := by
  cases j <;> first
    | exact ⟨_, rfl⟩
    | simp [Json.lookup] at h

/-- Every record assembled by attaching comments, history and
attachments to a bug shell carries those three fields. -/
theorem assembled_fields {bug bugId : Json} (c h a : Json)
    (hid : bug.lookup "id" = some bugId) :
    ((((bug.set "comments" c).set "history" h).set "attachments" a).lookup
        "comments" = some c) ∧
    ((((bug.set "comments" c).set "history" h).set "attachments" a).lookup
        "history" = some h) ∧
    ((((bug.set "comments" c).set "history" h).set "attachments" a).lookup
        "attachments" = some a) := by
  obtain ⟨f, rfl⟩ := lookup_eq_some_obj hid
  refine ⟨?_, ?_, ?_⟩ <;>
    simp only [Json.set, Json.lookup] <;>
    rw [show ∀ x y : Option Json, x = y ↔ x = y from fun _ _ => Iff.rfl]
  · rw [getKey_setKey_ne _ _ (by decide), getKey_setKey_ne _ _ (by decide),
      getKey_setKey_self]
  · rw [getKey_setKey_ne _ _ (by decide), getKey_setKey_self]
  · rw [getKey_setKey_self]

theorem replayBug_ok {bug bugId cRaw c hRaw h aRaw a : Json}
    (hid : bug.lookup "id" = some bugId)
    (hc : parseComments cRaw bugId = some c)
    (hh : parseHistory hRaw = some h)
    (ha : parseAttachments aRaw bugId = some a)
    (tail : List Json) :
    replayBug bug (cRaw :: hRaw :: aRaw :: tail) =
      .ok (((bug.set "comments" c).set "history" h).set "attachments" a, tail) := by
  simp [replayBug, hid, hc, hh, ha]

/-- Replaying one fully committed page consumes exactly its entry
triplets and reproduces the very bugs the live fetch assembled. -/
theorem replayPage_shape {srv : Server} {bugs es ys : List Json}
    (hshape : PageShape srv bugs es ys) (tail : List Json) :
    replayPage bugs (es ++ tail) = (ys, tail, none) := by
  induction hshape generalizing tail with
  | nil => simp [replayPage]
  | cons bug bugId cRaw c hRaw h aRaw a bugs es ys hid hcall hc hhcall hh hacall ha hrest ih =>
    simp only [replayPage, List.cons_append]
    rw [replayBug_ok hid hc hh ha]
    simp only [ih tail]

@[simp] theorem replayLoop_nil (fuel : Nat) : replayLoop fuel [] = ([], none) := by
  cases fuel <;> rfl

/-- Replaying the committed entries of a run of fully processed pages
reproduces exactly the bugs those pages yielded live, and then
continues on whatever follows in the log. -/
theorem replayLoop_completed_run {srv : Server} {m : Int} {off : Int}
    {gps yss : List (List Json)}
    (hpre : CompletedPages srv m off gps yss) :
    ∀ (tail : List Json) (fuel : Nat), gps.length ≤ fuel →
      replayLoop fuel (gps.flatten ++ tail) =
        (yss.flatten ++ (replayLoop (fuel - gps.length) tail).1,
         (replayLoop (fuel - gps.length) tail).2) := by
  induction hpre with
  | nil off => intro tail fuel _; simp
  | page off raw bugs es ys gps yss h1 h2 h3 hshape hrest ih =>
    intro tail fuel hfuel
    obtain ⟨f, rfl⟩ : ∃ f, fuel = f + 1 := by
      refine ⟨fuel - 1, ?_⟩
      simp only [List.length_cons] at hfuel
      omega
    have hf : gps.length ≤ f := by
      simp only [List.length_cons] at hfuel
      omega
    simp only [List.flatten_cons, List.cons_append, List.append_assoc]
    simp only [replayLoop, h2]
    rw [replayPage_shape hshape]
    simp only [ih tail f hf, List.length_cons, Nat.succ_sub_succ, List.flatten_cons,
      List.append_assoc]

/-- The cache-state invariant of the per-page bug loop: it never
touches the committed content, and when it completes without raising it
has buffered exactly the entry triplets of its page, in order, and
yielded the corresponding assembled bugs. -/
theorem processBugs_spec (srv : Server) :
    ∀ (bugs : List Json) (st : CacheState),
      (processBugs srv bugs st).1.committed = st.committed ∧
      ((processBugs srv bugs st).2.2 = none →
        ∃ es, (processBugs srv bugs st).1.queue = st.queue ++ es ∧
          PageShape srv bugs es (processBugs srv bugs st).2.1) := by
  intro bugs
  induction bugs with
  | nil =>
    intro st
    refine ⟨rfl, fun _ => ⟨[], by simp [processBugs], PageShape.nil⟩⟩
  | cons bug rest ih =>
    intro st
    rcases hid : bug.lookup "id" with _ | bugId
    · simp [processBugs, hid]
    rcases hc : srv.comments bugId with cRaw | s
    · rcases hpc : parseComments cRaw bugId with _ | c
      · simp [processBugs, hid, fetch_and_parse_comments, hc, hpc]
      rcases hh : srv.history bugId with hRaw | s
      · rcases hph : parseHistory hRaw with _ | h
        · simp [processBugs, hid, fetch_and_parse_comments, hc, hpc,
            fetch_and_parse_history, hh, hph]
        rcases ha : srv.attachments bugId with aRaw | s
        · rcases hpa : parseAttachments aRaw bugId with _ | a
          · simp [processBugs, hid, fetch_and_parse_comments, hc, hpc,
              fetch_and_parse_history, hh, hph, fetch_and_parse_attachments, ha, hpa]
          have hrec := ih (((st.push cRaw).push hRaw).push aRaw)
          simp only [processBugs, hid, fetch_and_parse_comments, hc, hpc,
            fetch_and_parse_history, hh, hph, fetch_and_parse_attachments, ha, hpa]
          refine ⟨by simpa using hrec.1, fun hdone => ?_⟩
          obtain ⟨es, hq, hshape⟩ := hrec.2 hdone
          refine ⟨cRaw :: hRaw :: aRaw :: es, ?_, ?_⟩
          · simpa [List.append_assoc] using hq
          · exact PageShape.cons bug bugId cRaw c hRaw h aRaw a rest es _
              hid hc hpc hh hph ha hpa hshape
        · simp [processBugs, hid, fetch_and_parse_comments, hc, hpc,
            fetch_and_parse_history, hh, hph, fetch_and_parse_attachments, ha]
      · simp [processBugs, hid, fetch_and_parse_comments, hc, hpc,
          fetch_and_parse_history, hh]
    · simp [processBugs, hid, fetch_and_parse_comments, hc]

theorem PageShape_len {srv : Server} {bugs es ys : List Json}
    (h : PageShape srv bugs es ys) :
    es.length = 3 * ys.length ∧ ys.length = bugs.length := by
  induction h with
  | nil => simp
  | cons bug bugId cRaw c hRaw h' aRaw a bugs es ys h1 h2 h3 h4 h5 h6 h7 h8 ih =>
    obtain ⟨ih1, ih2⟩ := ih
    simp only [List.length_cons]
    omega

theorem CompletedPages_len {srv : Server} {m : Int} {off : Int}
    {gps yss : List (List Json)} (h : CompletedPages srv m off gps yss) :
    gps.flatten.length = gps.length + 3 * yss.flatten.length ∧
    gps.length ≤ gps.flatten.length := by
  induction h with
  | nil => simp
  | page off raw bugs es ys gps yss h1 h2 h3 hshape hrest ih =>
    obtain ⟨ih1, ih2⟩ := ih
    obtain ⟨hl, _⟩ := PageShape_len hshape
    simp only [List.flatten_cons, List.length_append, List.length_cons]
    omega

/-- The master characterization of the pagination loop started with an
empty buffer: its committed output is exactly the concatenated groups
of a run of fully processed pages, and when it completes cleanly its
yields are exactly those pages' assembled bugs and the run ended on an
empty page at the next offset. -/
theorem fetch_bugs_spec (srv : Server) (m : Int) :
    ∀ (fuel : Nat) (off : Int) (C : List Json),
      ∃ gps yss, CompletedPages srv m off gps yss ∧
        (fetch_bugs srv m fuel off ⟨C, []⟩).1.committed = C ++ gps.flatten ∧
        ((fetch_bugs srv m fuel off ⟨C, []⟩).2.2 = none →
          (fetch_bugs srv m fuel off ⟨C, []⟩).2.1 = yss.flatten ∧
          ∃ raw, srv.bugsAt (off + m * gps.length) m = .ok raw ∧
            raw.lookup "bugs" = some (.arr [])) := by
  intro fuel
  induction fuel with
  | zero =>
    intro off C
    exact ⟨[], [], .nil off, by simp [fetch_bugs], by simp [fetch_bugs]⟩
  | succ f ih =>
    intro off C
    rcases hb : srv.bugsAt off m with raw | s
    case err =>
      exact ⟨[], [], .nil off, by simp [fetch_bugs, hb], by simp [fetch_bugs, hb]⟩
    rcases hl : raw.lookup "bugs" with _ | bs
    · exact ⟨[], [], .nil off, by simp [fetch_bugs, hb, hl], by simp [fetch_bugs, hb, hl]⟩
    cases bs
    case arr bugs =>
      rcases bugs with _ | ⟨bug, rest⟩
      · refine ⟨[], [], .nil off, by simp [fetch_bugs, hb, hl], fun _ => ?_⟩
        refine ⟨by simp [fetch_bugs, hb, hl], raw, ?_, hl⟩
        simpa using hb
      · have hps := processBugs_spec srv (bug :: rest) (CacheState.push ⟨C, []⟩ raw)
        rcases hpb : processBugs srv (bug :: rest) (CacheState.push ⟨C, []⟩ raw)
          with ⟨st2, ys1, e1⟩
        rw [hpb] at hps
        cases e1 with
        | some err =>
          refine ⟨[], [], .nil off, ?_, ?_⟩
          · simp only [fetch_bugs, hb, hl, List.isEmpty_cons, hpb]
            simpa using hps.1
          · simp [fetch_bugs, hb, hl, hpb]
        | none =>
          obtain ⟨es, hq, hshape⟩ := hps.2 rfl
          replace hshape : PageShape srv (bug :: rest) es ys1 := hshape
          have hcm : st2.committed = C := by simpa using hps.1
          have hqm : st2.queue = raw :: es := by simpa [CacheState.push] using hq
          have hflush : st2.flush = ⟨C ++ (raw :: es), []⟩ := by
            simp [CacheState.flush, hcm, hqm]
          obtain ⟨gps', yss', hcomp', hcom', hdone'⟩ := ih (off + m) (C ++ (raw :: es))
          refine ⟨(raw :: es) :: gps', ys1 :: yss',
            .page off raw (bug :: rest) es ys1 gps' yss' hb hl (by simp) hshape hcomp',
            ?_, ?_⟩
          · simp only [fetch_bugs, hb, hl, List.isEmpty_cons, hpb, hflush]
            simpa [List.flatten_cons] using hcom'
          · intro hnone
            simp only [fetch_bugs, hb, hl, List.isEmpty_cons, hpb, hflush] at hnone ⊢
            obtain ⟨hys, raw2, hb2, hl2⟩ := hdone' hnone
            refine ⟨by simp [hys, List.flatten_cons], raw2, ?_, hl2⟩
            have : off + m + m * (gps'.length : Int) =
                off + m * (((raw :: es) :: gps').length : Int) := by
              simp only [List.length_cons]
              push_cast
              ring
            rwa [this] at hb2
    all_goals
      exact ⟨[], [], .nil off, by simp [fetch_bugs, hb, hl], by simp [fetch_bugs, hb, hl]⟩

theorem replayBug_no_cache_err (bug : Json) (items : List Json) :
    replayBug bug items ≠ .error .cacheUnavailable := by
  unfold replayBug
  repeat' split
  all_goals simp

theorem replayPage_no_cache_err :
    ∀ (bugs items : List Json),
      (replayPage bugs items).2.2 ≠ some .cacheUnavailable := by
  intro bugs
  induction bugs with
  | nil => intro items; simp [replayPage]
  | cons bug rest ih =>
    intro items
    rcases hrb : replayBug bug items with e' | pr
    · simp only [replayPage, hrb, ne_eq, Option.some_inj]
      intro hcontra
      subst hcontra
      exact replayBug_no_cache_err bug items hrb
    · obtain ⟨bug', items'⟩ := pr
      rcases hrp : replayPage rest items' with ⟨ys, items2, e2⟩
      have hrec := ih items'
      rw [hrp] at hrec
      simp only [replayPage, hrb, hrp]
      simpa using hrec

theorem replayLoop_no_cache_err :
    ∀ (fuel : Nat) (items : List Json),
      (replayLoop fuel items).2 ≠ some .cacheUnavailable := by
  intro fuel
  induction fuel with
  | zero => intro items; simp [replayLoop]
  | succ f ih =>
    intro items
    rcases items with _ | ⟨raw, rest⟩
    · simp
    rcases hl : raw.lookup "bugs" with _ | bs
    · simp [replayLoop, hl]
    cases bs
    case arr bugs =>
      rcases hrp : replayPage bugs rest with ⟨ys, rest', e2⟩
      cases e2 with
      | none =>
        rcases hloop : replayLoop f rest' with ⟨ys2, e⟩
        have hrec := ih rest'
        rw [hloop] at hrec
        simp only [replayLoop, hl, hrp, hloop]
        simpa using hrec
      | some e2 =>
        have hpage := replayPage_no_cache_err bugs rest
        rw [hrp] at hpage
        simp only [replayLoop, hl, hrp]
        simpa using hpage
    all_goals simp [replayLoop, hl]

theorem PageShape_assembled {srv : Server} {bugs es ys : List Json}
    (h : PageShape srv bugs es ys) :
    ∀ y ∈ ys, ∃ c hi a, y.lookup "comments" = some c ∧
      y.lookup "history" = some hi ∧ y.lookup "attachments" = some a := by
  induction h with
  | nil => simp
  | cons bug bugId cRaw c hRaw h' aRaw a bugs es ys h1 h2 h3 h4 h5 h6 h7 h8 ih =>
    intro y hy
    rcases List.mem_cons.mp hy with rfl | hy
    · obtain ⟨f1, f2, f3⟩ := assembled_fields c h' a h1
      exact ⟨c, h', a, f1, f2, f3⟩
    · exact ih y hy

theorem CompletedPages_assembled {srv : Server} {m : Int} {off : Int}
    {gps yss : List (List Json)} (h : CompletedPages srv m off gps yss) :
    ∀ y ∈ yss.flatten, ∃ c hi a, y.lookup "comments" = some c ∧
      y.lookup "history" = some hi ∧ y.lookup "attachments" = some a := by
  induction h with
  | nil => simp
  | page off raw bugs es ys gps yss h1 h2 h3 hshape hrest ih =>
    intro y hy
    simp only [List.flatten_cons, List.mem_append] at hy
    rcases hy with hy | hy
    · exact PageShape_assembled hshape y hy
    · exact ih y hy

/-- C1: Replay fidelity — for the same upstream responses, running
`fetch_from_cache` over the cache written by a completed `fetch` yields
exactly the same sequence of bug records (same identifiers, same order,
and identical comments, history and attachments content) as that
`fetch` produced live. -/
theorem claim_replay_fidelity (b : BugzillaREST) (srv : Server) (fuel : Nat)
    (q : List Json) (st' : CacheState) (ys : List Json)
    (hc : b.hasCache = true)
    (h : b.fetch srv fuel ⟨[], q⟩ = (st', ys, none)) :
    b.fetch_from_cache st' = (ys, none) := by
  obtain ⟨gps, yss, hcomp, hcom, hdone⟩ := fetch_bugs_spec srv b.maxBugs fuel 0 []
  have h' : fetch_bugs srv b.maxBugs fuel 0 ⟨[], []⟩ = (st', ys, none) := h
  rw [h'] at hcom hdone
  obtain ⟨hys, -⟩ := hdone rfl
  simp only at hcom hys
  simp only [BugzillaREST.fetch_from_cache, hc, if_true]
  have hlen := (CompletedPages_len hcomp).2
  have := replayLoop_completed_run hcomp [] gps.flatten.length (by omega)
  rw [List.append_nil] at this
  rw [hcom]
  simp only [List.nil_append]
  rw [this]
  simp [hys]

/-- C2: Cache ordering and shape — a completed fetch extends the
committed cache content by exactly the groups of its fully processed
pages: for each page in order, the raw page response followed by, for
each bug of that page in server order, exactly three entries in the
fixed order comments, history, attachments (the `CompletedPages`
shape), with total committed length `P + 3 * sum of page bug counts`
and no other committed entries. -/
theorem claim_cache_order_shape (b : BugzillaREST) (srv : Server) (fuel : Nat)
    (st st' : CacheState) (ys : List Json)
    (h : b.fetch srv fuel st = (st', ys, none)) :
    ∃ gps yss, CompletedPages srv b.maxBugs 0 gps yss ∧
      st'.committed = st.committed ++ gps.flatten ∧
      gps.flatten.length = gps.length + 3 * yss.flatten.length := by
  obtain ⟨gps, yss, hcomp, hcom, hdone⟩ := fetch_bugs_spec srv b.maxBugs fuel 0 st.committed
  have h' : fetch_bugs srv b.maxBugs fuel 0 ⟨st.committed, []⟩ = (st', ys, none) := h
  rw [h'] at hcom
  exact ⟨gps, yss, hcomp, hcom, (CompletedPages_len hcomp).1⟩

/-- C4: Pagination termination — when `fetch` completes (its run ends
on a page with zero bugs), it has yielded exactly the bugs of a run of
fully processed pages starting at offset 0, page by page in server
order, each counted once and each fully assembled with comments,
history and attachments fields, and the page requested right after that
run — at the next offset — decodes to zero bugs: the run covers all
non-empty pages up to the terminating empty one. -/
theorem claim_pagination_termination (b : BugzillaREST) (srv : Server)
    (fuel : Nat) (st st' : CacheState) (ys : List Json)
    (h : b.fetch srv fuel st = (st', ys, none)) :
    ∃ gps yss, CompletedPages srv b.maxBugs 0 gps yss ∧ ys = yss.flatten ∧
      ys.length = (yss.map List.length).sum ∧
      (∀ y ∈ ys, ∃ c hi a, y.lookup "comments" = some c ∧
        y.lookup "history" = some hi ∧ y.lookup "attachments" = some a) ∧
      ∃ raw, srv.bugsAt (0 + b.maxBugs * (gps.length : Int)) b.maxBugs = .ok raw ∧
        raw.lookup "bugs" = some (.arr []) := by
  obtain ⟨gps, yss, hcomp, hcom, hdone⟩ := fetch_bugs_spec srv b.maxBugs fuel 0 st.committed
  have h' : fetch_bugs srv b.maxBugs fuel 0 ⟨st.committed, []⟩ = (st', ys, none) := h
  rw [h'] at hdone
  obtain ⟨hys, hend⟩ := hdone rfl
  simp only at hys
  subst hys
  exact ⟨gps, yss, hcomp, rfl, List.length_flatten yss,
    CompletedPages_assembled hcomp, hend⟩

/-- C5: Purge-before-fetch — `fetch` discards whatever the cache queue
holds before doing anything else, so its entire behaviour (yields,
errors and final cache content) is the same as if the queue had been
empty; buffered-but-uncommitted leftovers of a prior run can never
reach the committed content. -/
theorem claim_purge_before_fetch (b : BugzillaREST) (srv : Server) (fuel : Nat)
    (committed queue : List Json) :
    b.fetch srv fuel ⟨committed, queue⟩ = b.fetch srv fuel ⟨committed, []⟩ := rfl

/-- C6: Transport-error atomicity — when `fetch` propagates a transport
error (a non-success HTTP status raised by any resource call), the
committed cache content has been extended only by the groups of pages
that were fully processed before the failure; the partially processed
page contributed nothing to the committed content. -/
theorem claim_transport_atomicity (b : BugzillaREST) (srv : Server)
    (fuel : Nat) (st st' : CacheState) (ys : List Json) (s : Nat)
    (h : b.fetch srv fuel st = (st', ys, some (.transport s))) :
    ∃ gps yss, CompletedPages srv b.maxBugs 0 gps yss ∧
      st'.committed = st.committed ++ gps.flatten := by
  obtain ⟨gps, yss, hcomp, hcom, -⟩ := fetch_bugs_spec srv b.maxBugs fuel 0 st.committed
  have h' : fetch_bugs srv b.maxBugs fuel 0 ⟨st.committed, []⟩ = (st', ys, some (.transport s)) := h
  rw [h'] at hcom
  exact ⟨gps, yss, hcomp, hcom⟩

/-- C7: Cache-unavailable failure — `fetch_from_cache` on a connector
configured without a cache fails with the cache-unavailable error
before yielding anything; with a cache configured that error condition
never occurs. -/
theorem claim_cache_unavailable (b : BugzillaREST) (st : CacheState) :
    (b.hasCache = false →
      b.fetch_from_cache st = ([], some .cacheUnavailable)) ∧
    (b.hasCache = true →
      (b.fetch_from_cache st).2 ≠ some .cacheUnavailable) := by
  constructor
  · intro hc
    simp [BugzillaREST.fetch_from_cache, hc]
  · intro hc
    simp only [BugzillaREST.fetch_from_cache, hc, if_true]
    exact replayLoop_no_cache_err _ _

/-- C8: Floor clamp — constructing the connector with `max_bugs ≤ 0`
produces the very same connector as constructing it with `max_bugs = 1`
(effective page size 1 and identical pagination behaviour). -/
theorem claim_floor_clamp (m : Int) (c : Bool) (h : m ≤ 0) :
    BugzillaREST.init m c = BugzillaREST.init 1 c ∧
    (BugzillaREST.init m c).maxBugs = 1 ∧
    ∀ (srv : Server) (fuel : Nat) (st : CacheState),
      (BugzillaREST.init m c).fetch srv fuel st =
        (BugzillaREST.init 1 c).fetch srv fuel st := by
  have hm : max 1 m = 1 := max_eq_left (le_trans h (by norm_num))
  refine ⟨?_, ?_, ?_⟩ <;> simp [BugzillaREST.init, hm]

/-- C9: Extraction helpers — for a bug item carrying an `id` field and
a parseable `last_change_time` field, `metadata_id` returns the
stringified identifier and `metadata_updated_on` returns the UNIX
timestamp of the parsed datetime, with its timezone offset subtracted
from the wall-clock reading. -/
theorem claim_metadata_helpers (item v : Json) (s : String) (dt : PyDatetime)
    (hid : item.lookup "id" = some v)
    (hts : item.lookup "last_change_time" = some (.str s))
    (hp : strToDatetime s = some dt) :
    metadata_id item = .ok (pyStr v) ∧
    metadata_updated_on item = .ok (dt.naiveSeconds - dt.utcOffset) := by
  constructor
  · simp [metadata_id, hid]
  · simp [metadata_updated_on, hts, hp, PyDatetime.timestamp]

/-- A bug with fewer than its three entries left in the log fails with
the sequence-exhaustion error: the generator performs all three `next`
reads before any decoding, so the contents of the entries that are
present never matter. -/
theorem replayBug_short {bug bugId : Json} {items : List Json}
    (hid : bug.lookup "id" = some bugId) (h : items.length < 3) :
    replayBug bug items = .error .seqExhausted := by
  rcases items with _ | ⟨x, _ | ⟨y, _ | ⟨z, rest⟩⟩⟩
  · simp [replayBug, hid]
  · simp [replayBug, hid]
  · simp [replayBug, hid]
  · simp only [List.length_cons] at h
    omega

/-- Replaying a page whose leading bugs have their full entry triplets
in the log yields those bugs and then continues with the remaining
bugs on the remaining entries. -/
theorem replayPage_append {srv : Server} {done esDone ysDone : List Json}
    (h : PageShape srv done esDone ysDone) (more tail : List Json) :
    replayPage (done ++ more) (esDone ++ tail) =
      (ysDone ++ (replayPage more tail).1,
       (replayPage more tail).2.1, (replayPage more tail).2.2) := by
  induction h with
  | nil => simp
  | cons bug bugId cRaw c hRaw h' aRaw a bugs es ys h1 h2 h3 h4 h5 h6 h7 h8 ih =>
    simp only [List.cons_append, replayPage]
    rw [replayBug_ok h1 h3 h5 h7]
    simp only [List.append_eq, ih]

/-- C10: Misaligned-log behaviour — on a committed log consisting of
any run of complete page groups, then a non-empty page entry, then full
entry triplets for any leading run of that page's bugs, then fewer than
three entries for the next bug (a truncated log ending there),
`fetch_from_cache` yields the bugs of the complete groups and the fully
covered leading bugs of the final page, and then fails with the
uncaught sequence-exhaustion error while reading the missing entry,
instead of yielding that bug partially assembled or stopping
cleanly. -/
theorem claim_truncated_log (b : BugzillaREST) (srv : Server) (m off : Int)
    (gps yss : List (List Json)) (pageRaw bug bugId : Json)
    (done esDone ysDone restBugs shortEs queue : List Json)
    (hb : b.hasCache = true)
    (hpre : CompletedPages srv m off gps yss)
    (hpage : pageRaw.lookup "bugs" = some (.arr (done ++ bug :: restBugs)))
    (hdone : PageShape srv done esDone ysDone)
    (hid : bug.lookup "id" = some bugId)
    (hshort : shortEs.length < 3) :
    b.fetch_from_cache ⟨gps.flatten ++ pageRaw :: (esDone ++ shortEs), queue⟩ =
      (yss.flatten ++ ysDone, some .seqExhausted) := by
  simp only [BugzillaREST.fetch_from_cache, hb, if_true]
  have hlen := (CompletedPages_len hpre).2
  have hlen2 : gps.length ≤ (gps.flatten ++ pageRaw :: (esDone ++ shortEs)).length := by
    simp only [List.length_append, List.length_cons]
    omega
  rw [replayLoop_completed_run hpre (pageRaw :: (esDone ++ shortEs)) _ hlen2]
  obtain ⟨k, hk⟩ : ∃ k,
      (gps.flatten ++ pageRaw :: (esDone ++ shortEs)).length - gps.length = k + 1 := by
    refine ⟨(gps.flatten ++ pageRaw :: (esDone ++ shortEs)).length - gps.length - 1, ?_⟩
    simp only [List.length_append, List.length_cons]
    omega
  rw [hk]
  have hbug : replayBug bug shortEs = .error .seqExhausted := replayBug_short hid hshort
  have hone : replayLoop (k + 1) (pageRaw :: (esDone ++ shortEs)) =
      (ysDone, some .seqExhausted) := by
    simp only [replayLoop, hpage]
    rw [replayPage_append hdone (bug :: restBugs) shortEs]
    simp only [replayPage, hbug]
    simp
  rw [hone]

/-- C3 counterexample: a fetch whose first page decodes to zero bugs
buffers that raw page but commits nothing — the committed content is
empty and the page sits in the uncommitted queue, refuting the claim
that the buffered empty page is flushed/committed before iteration
stops. -/
theorem claim_empty_page_commit_cex :
    (BugzillaREST.init 500 true).fetch emptySrv 1 ⟨[], []⟩ =
      (⟨[], [pageBody []]⟩, [], none) := rfl

/-- C3 (amended): when the pagination loop receives a page that decodes
to zero bugs, the raw page text is buffered into the cache queue and
iteration stops at once, with that entry left buffered but uncommitted
(no flush happens for it). -/
theorem claim_empty_page_buffered (srv : Server) (m : Int) (fuel : Nat)
    (off : Int) (st : CacheState) (raw : Json)
    (h1 : srv.bugsAt off m = .ok raw)
    (h2 : raw.lookup "bugs" = some (.arr [])) :
    fetch_bugs srv m (fuel + 1) off st = (st.push raw, [], none) := by
  simp [fetch_bugs, h1, h2]

theorem claim_empty_page_buffered_witness :
    fetch_bugs emptySrv 500 1 0 ⟨[], []⟩ =
      ((⟨[], []⟩ : CacheState).push (pageBody []), [], none) :=
  claim_empty_page_buffered emptySrv 500 0 0 ⟨[], []⟩ (pageBody []) rfl rfl

/-- The cache state the example server's completed fetch leaves behind:
seven committed entries (one page group) and the final empty page
buffered but uncommitted. -/
def exFetchState : CacheState :=
  ⟨[pageBody [bugShell 10, bugShell 11],
    commentsBody (.num 10), historyBody, attachmentsBody (.num 10),
    commentsBody (.num 11), historyBody, attachmentsBody (.num 11)],
   [pageBody []]⟩

theorem claim_replay_fidelity_witness :
    (BugzillaREST.init 500 true).fetch exampleSrv 2 ⟨[], []⟩ =
        (exFetchState, [assembledBug 10, assembledBug 11], none) ∧
      (BugzillaREST.init 500 true).fetch_from_cache exFetchState =
        ([assembledBug 10, assembledBug 11], none) :=
  ⟨rfl, claim_replay_fidelity (BugzillaREST.init 500 true) exampleSrv 2 []
    exFetchState [assembledBug 10, assembledBug 11] rfl rfl⟩

theorem claim_cache_order_shape_witness :
    ∃ gps yss,
      CompletedPages exampleSrv (BugzillaREST.init 500 true).maxBugs 0 gps yss ∧
      exFetchState.committed = ([] : List Json) ++ gps.flatten ∧
      gps.flatten.length = gps.length + 3 * yss.flatten.length :=
  claim_cache_order_shape (BugzillaREST.init 500 true) exampleSrv 2 ⟨[], []⟩
    exFetchState [assembledBug 10, assembledBug 11] rfl

theorem claim_pagination_termination_witness :
    ∃ gps yss,
      CompletedPages exampleSrv (BugzillaREST.init 500 true).maxBugs 0 gps yss ∧
      [assembledBug 10, assembledBug 11] = yss.flatten ∧
      ([assembledBug 10, assembledBug 11] : List Json).length =
        (yss.map List.length).sum ∧
      (∀ y ∈ ([assembledBug 10, assembledBug 11] : List Json),
        ∃ c hi a, y.lookup "comments" = some c ∧
          y.lookup "history" = some hi ∧ y.lookup "attachments" = some a) ∧
      ∃ raw, exampleSrv.bugsAt
          (0 + (BugzillaREST.init 500 true).maxBugs * (gps.length : Int))
          (BugzillaREST.init 500 true).maxBugs = .ok raw ∧
        raw.lookup "bugs" = some (.arr []) :=
  claim_pagination_termination (BugzillaREST.init 500 true) exampleSrv 2
    ⟨[], []⟩ exFetchState [assembledBug 10, assembledBug 11] rfl

theorem claim_transport_atomicity_witness :
    ∃ gps yss,
      CompletedPages brokenSrv (BugzillaREST.init 500 true).maxBugs 0 gps yss ∧
      (CacheState.mk [] [pageBody [bugShell 10, bugShell 11]]).committed =
        ([] : List Json) ++ gps.flatten :=
  claim_transport_atomicity (BugzillaREST.init 500 true) brokenSrv 2 ⟨[], []⟩
    ⟨[], [pageBody [bugShell 10, bugShell 11]]⟩ [] 500 rfl

theorem claim_cache_unavailable_witness :
    (BugzillaREST.init 500 false).fetch_from_cache ⟨[], []⟩ =
        ([], some .cacheUnavailable) ∧
      ((BugzillaREST.init 500 true).fetch_from_cache ⟨[], []⟩).2 ≠
        some .cacheUnavailable :=
  ⟨(claim_cache_unavailable (BugzillaREST.init 500 false) ⟨[], []⟩).1 rfl,
   (claim_cache_unavailable (BugzillaREST.init 500 true) ⟨[], []⟩).2 rfl⟩

theorem claim_floor_clamp_witness :
    BugzillaREST.init (-5) true = BugzillaREST.init 1 true ∧
    (BugzillaREST.init (-5) true).maxBugs = 1 ∧
    ∀ (srv : Server) (fuel : Nat) (st : CacheState),
      (BugzillaREST.init (-5) true).fetch srv fuel st =
        (BugzillaREST.init 1 true).fetch srv fuel st :=
  claim_floor_clamp (-5) true (by norm_num)

theorem claim_metadata_helpers_witness :
    metadata_id (bugShell 10) = .ok "10" ∧
    metadata_updated_on (bugShell 10) = .ok 1465269120 := by
  have h := claim_metadata_helpers (bugShell 10) (.num 10)
    "2016-06-07T05:12:00+02:00" ⟨1465276320, 7200⟩ rfl rfl (by decide)
  exact ⟨by rw [h.1]; rfl, by rw [h.2]; rfl⟩

theorem claim_truncated_log_witness :
    (BugzillaREST.init 500 true).fetch_from_cache
        ⟨[pageBody [bugShell 10, bugShell 11],
          commentsBody (.num 10), historyBody, attachmentsBody (.num 10),
          commentsBody (.num 11)], []⟩ =
      ([assembledBug 10], some .seqExhausted) :=
  claim_truncated_log (BugzillaREST.init 500 true) exampleSrv 500 0 [] []
    (pageBody [bugShell 10, bugShell 11]) (bugShell 11) (.num 11)
    [bugShell 10]
    [commentsBody (.num 10), historyBody, attachmentsBody (.num 10)]
    [assembledBug 10] [] [commentsBody (.num 11)] [] rfl (.nil 0) rfl
    (PageShape.cons (bugShell 10) (.num 10) (commentsBody (.num 10))
      (.arr [.str "a comment"]) historyBody (.arr [.str "an event"])
      (attachmentsBody (.num 10)) (.arr [.str "an attachment"]) [] [] []
      rfl rfl rfl rfl rfl rfl rfl PageShape.nil)
    rfl (by decide)

end Perceval
